import Mathlib

/-!
Shallow embedding of the pneumatic file-transfer service (Rust sources under
src/) together with proofs checking the natural-language specification's
claims against the code.

Modules covered: `protocol.rs` and `crypto.rs` (nonce counters, AEAD framing,
message serialization), `client.rs` (client send path), `server.rs` (greeting
handler, control messages, session registry), `config.rs` (thresholds),
`transfer.rs` (transfer-plan bucketing and the concurrent discovery engine).

Machine integers are modelled as `Nat` with explicit `% 2^w` where overflow
matters.  Rust panics (`unwrap` on `None`, `todo!()`) are modelled as
`Except PanicKind`.  The AEAD cipher (ring's AES-256-GCM) is an external
library and is kept abstract: pipeline functions take the seal/open
functions as parameters; theorems that need its contract (round tripping,
the 16-byte tag) take that contract as an explicit hypothesis.
-/

/-! ## Byte-level encodings

`tokio`'s `write_u32`/`read_u32` use big-endian (network) byte order;
`u64::to_le_bytes` is little-endian.  Bytes are `Nat` values below 256.
-/

/-- Little-endian 4-byte encoding of a `u32` value (bincode's integer encoding). -/
def le32 (v : Nat) : List Nat :=
  [v % 256, v / 256 % 256, v / 65536 % 256, v / 16777216 % 256]

/-- Big-endian 4-byte encoding of a `u32` value (`tokio::io::AsyncWriteExt::write_u32`). -/
def be32 (v : Nat) : List Nat :=
  [v / 16777216 % 256, v / 65536 % 256, v / 256 % 256, v % 256]

/-- Decode a big-endian 4-byte prefix (`tokio::io::AsyncReadExt::read_u32`). -/
def deBe32 : List Nat → Nat
  | b0 :: b1 :: b2 :: b3 :: _ => ((b0 * 256 + b1) * 256 + b2) * 256 + b3
  | _ => 0

/-- Little-endian 8-byte encoding of a `u64` value (`u64::to_le_bytes`). -/
def le64 (v : Nat) : List Nat :=
  [v % 256, v / 256 % 256, v / 65536 % 256, v / 16777216 % 256,
   v / 4294967296 % 256, v / 1099511627776 % 256,
   v / 281474976710656 % 256, v / 72057594037927936 % 256]

/-! ## protocol.rs : messages and serialization

`Message` is the tagged union from `protocol.rs` (`Greeting { protocol_version:
u32 }` and `Disconnect`).  bincode 1.x encodes an enum as its variant index as
a `u32` in little-endian followed by the variant's fields; `protocol_version`
is a `u32` in little-endian. -/

/-- Fixed protocol version constant (`protocol.rs` line 13). -/
def PROTOCOL_VERSION : Nat := 1

/-- Tagged message union from `protocol.rs` (`Message`). -/
inductive Message where
  | Greeting (protocol_version : Nat)
  | Disconnect
deriving DecidableEq

/-- Well-formedness of a message value: the `protocol_version` field is a `u32`. -/
def Message.wf : Message → Prop
  | .Greeting v => v < 4294967296
  | .Disconnect => True

instance : DecidablePred Message.wf := by
  intro m
  cases m with
  | Greeting v => exact inferInstanceAs (Decidable (v < 4294967296))
  | Disconnect => exact inferInstanceAs (Decidable True)

/-- bincode serialization of `Message`: variant tag as u32 little-endian, then
the fields (`bincode::serialize` in `Connection::send_message`). -/
def serMessage : Message → List Nat
  | .Greeting v => le32 0 ++ le32 v
  | .Disconnect => le32 1

/-- bincode deserialization of `Message` (`bincode::deserialize` in
`Connection::read_message`); trailing bytes are ignored. -/
def deserMessage : List Nat → Option Message
  | 0 :: 0 :: 0 :: 0 :: b0 :: b1 :: b2 :: b3 :: _ =>
      some (.Greeting (b0 + 256 * (b1 + 256 * (b2 + 256 * b3))))
  | 1 :: 0 :: 0 :: 0 :: _ => some .Disconnect
  | _ => none

/-- Greeting response union from `protocol.rs` (`GreetingResponse`). -/
inductive GreetingResponse where
  | ProtocolOk
  | UnsupportedProtocol
deriving DecidableEq

/-- Modelled from the spec: the `ClientMessage` enum referenced by
`server.rs`/`client.rs` is declared in a part of the repository missing from
`src/`.  Its shape follows the spec's `Message` tagged union (`Greeting`
carrying `protocol_version`, and `Disconnect`) and the match arms in
`Server::handle_client`. -/
inductive ClientMessage where
  | Greeting (protocol_version : Nat)
  | Disconnect
deriving DecidableEq

/-- bincode serialization of `ClientMessage` (same encoding scheme as
`Message`: u32 little-endian variant tag, then fields). -/
def serClientMessage : ClientMessage → List Nat
  | .Greeting v => le32 0 ++ le32 v
  | .Disconnect => le32 1

/-! ## crypto.rs : nonce counters and the encrypted framed stream

`NonceCounter` wraps a `u64` initialized to 1; `advance` increments the
counter and then builds a 96-bit (12-byte) nonce whose first 8 bytes are the
little-endian counter and whose remaining 4 bytes stay zero.  The `u64`
increment is modelled with wraparound (`% 2^64`). -/

/-- `NonceCounter` from `crypto.rs`/`protocol.rs`: a `u64` counter. -/
structure NonceCounter where
  counter : Nat
deriving DecidableEq

/-- `NonceCounter::new`: counter starts at 1. -/
def NonceCounter.new : NonceCounter := ⟨1⟩

/-- `NonceSequence::advance` for `NonceCounter`: increment, then produce the
12-byte nonce `[le64 counter, 0, 0, 0, 0]`. -/
def NonceCounter.advance (n : NonceCounter) : List Nat × NonceCounter :=
  let c := (n.counter + 1) % 18446744073709551616
  (le64 c ++ [0, 0, 0, 0], ⟨c⟩)

/-- Counter state after `k` calls to `advance`, starting from `NonceCounter::new`. -/
def NonceCounter.afterAdvances : Nat → NonceCounter
  | 0 => NonceCounter.new
  | k + 1 => ((NonceCounter.afterAdvances k).advance).2

/-- The nonce produced by use number `k` (zero-based) of one cipher direction. -/
def nonceUsed (k : Nat) : List Nat := ((NonceCounter.afterAdvances k).advance).1

/-- The two cipher directions of a channel (`Keys` in `crypto.rs`): each is
bound with its own fresh `NonceCounter` by `bind_key`.  Only the nonce state
is modelled; the AES-256-GCM keys live in the external library. -/
structure Keys where
  encrypt_counter : NonceCounter
  decrypt_counter : NonceCounter
deriving DecidableEq

/-- `derive_keys`/`create_keys` call `bind_key` once per direction, and
`bind_key` constructs `NonceCounter::new()` each time. -/
def Keys.new : Keys :=
  { encrypt_counter := NonceCounter.new, decrypt_counter := NonceCounter.new }

/-- Sealing a frame advances only the encrypt direction's nonce counter. -/
def Keys.sealAdvance (k : Keys) : Keys :=
  { k with encrypt_counter := (k.encrypt_counter.advance).2 }

/-- Opening a frame advances only the decrypt direction's nonce counter. -/
def Keys.openAdvance (k : Keys) : Keys :=
  { k with decrypt_counter := (k.decrypt_counter.advance).2 }

/-- `EncryptedStream::send_buffer` (and the identical inline code in
`Connection::send_message`): seal the buffer in place appending the tag using
the next nonce, then write the sealed length as a big-endian `u32`
(`serialized.len() as u32`, hence `% 2^32`) followed by the sealed bytes.
Returns the bytes written and the new encrypt counter.  `sealF` abstracts
ring's `seal_in_place_append_tag`, taking the nonce counter value used. -/
def send_buffer (sealF : Nat → List Nat → List Nat) (ctr : Nat) (buffer : List Nat) :
    List Nat × Nat :=
  let sealed := sealF (ctr + 1) buffer
  (be32 (sealed.length % 4294967296) ++ sealed, ctr + 1)

/-- One direction of a `Connection`: the bytes written so far and the encrypt
nonce counter. -/
structure SendState where
  out : List Nat
  ctr : Nat
deriving DecidableEq

/-- `Connection::send_message`: bincode-serialize the message, seal it with the
next encrypt nonce, write the 4-byte big-endian length, then the
ciphertext+tag. -/
def Connection.send_message (sealF : Nat → List Nat → List Nat)
    (st : SendState) (m : Message) : SendState :=
  let serialized := serMessage m
  let fr := send_buffer sealF st.ctr serialized
  { out := st.out ++ fr.1, ctr := fr.2 }

/-- `Connection::read_message`: read a 4-byte big-endian length, read exactly
that many bytes, open with the next decrypt nonce
(`openF` abstracts ring's `open_in_place`; `none` is an authentication
failure, which panics in the source), then bincode-deserialize.  Returns the
message, the new decrypt counter and the unread remainder of the stream. -/
def Connection.read_message (openF : Nat → List Nat → Option (List Nat))
    (ctr : Nat) (stream : List Nat) : Option (Message × Nat × List Nat) :=
  if stream.length < 4 then none
  else
    let len := deBe32 (stream.take 4)
    let rest := stream.drop 4
    if rest.length < len then none
    else
      match openF (ctr + 1) (rest.take len) with
      | none => none
      | some plain =>
        match deserMessage plain with
        | none => none
        | some m => some (m, ctr + 1, rest.drop len)

/-- Repeated `Connection::send_message` over a message list. -/
def Connection.send_all (sealF : Nat → List Nat → List Nat) :
    SendState → List Message → SendState
  | st, [] => st
  | st, m :: ms => Connection.send_all sealF (Connection.send_message sealF st m) ms

/-- Repeated `Connection::read_message`: read `k` messages off the stream. -/
def Connection.read_messages (openF : Nat → List Nat → Option (List Nat)) :
    Nat → Nat → List Nat → Option (List Message)
  | 0, _, _ => some []
  | k + 1, ctr, stream =>
    match Connection.read_message openF ctr stream with
    | none => none
    | some (m, ctr2, rest) =>
      (Connection.read_messages openF k ctr2 rest).map (m :: ·)

/-! ## client.rs : the client send path -/

/-- `Client` from `client.rs`: an optional connection (the connection is
`take`n by the drop logic). -/
structure Client where
  connection : Option SendState

/-- `Client::send_message_stream`: serialize the `ClientMessage` with bincode
and send it on the connection's encrypted stream (`send_bincode` =
serialize + `send_buffer`). -/
def Client.send_message_stream (sealF : Nat → List Nat → List Nat)
    (connection : SendState) (message : ClientMessage) : SendState :=
  let serialized := serClientMessage message
  let fr := send_buffer sealF connection.ctr serialized
  { out := connection.out ++ fr.1, ctr := fr.2 }

/-- `Client::send_message`: match on `self.connection.as_mut()` — `None` does
nothing (no send, no error, the function simply returns), `Some` sends on
the connection. -/
def Client.send_message (sealF : Nat → List Nat → List Nat)
    (c : Client) (message : ClientMessage) : Client :=
  match c.connection with
  | none => c
  | some connection =>
      { connection := some (Client.send_message_stream sealF connection message) }

/-! ## server.rs : greeting handler, control messages, session registry -/

/-- Panic reasons used to model Rust panics as `Except` errors:
`unwrapPanicked` is `Option::unwrap` on `None`, `todoPanicked` is `todo!()`. -/
inductive PanicKind where
  | unwrapPanicked
  | todoPanicked
deriving DecidableEq

/-- The action `Server::handle_client` performs for one received message. -/
inductive HandlerAction where
  | Respond (response : GreetingResponse)
  | SendControlDisconnect (address : Nat)
deriving DecidableEq

/-- One iteration of the `Server::handle_client` loop (`server.rs` lines
73-92): on `ClientMessage::Greeting(_)` it responds `GreetingResponse::ProtocolOk`
unconditionally (the greeting's fields are not inspected); on
`ClientMessage::Disconnect` it sends `ControlMessage::Disconnect(address)` on
the server channel and breaks. -/
def Server.handle_client_step (address : Nat) (message : ClientMessage) :
    HandlerAction :=
  match message with
  | .Greeting _ => .Respond .ProtocolOk
  | .Disconnect => .SendControlDisconnect address

/-- `ControlMessage` from `server.rs`. -/
inductive ControlMessage where
  | Shutdown
  | Disconnect (address : Nat)
deriving DecidableEq

/-- The session registry `Server::sessions` (a `HashMap<SocketAddr,
SharedSession>`), modelled as its list of keys (socket addresses as `Nat`). -/
abbrev Registry := List Nat

/-- `server_writer.sessions.insert(address, session)` in the accept loop:
the session is registered under its address before the handler is spawned. -/
def Registry.insert_session (address : Nat) (sessions : Registry) : Registry :=
  if address ∈ sessions then sessions else sessions ++ [address]

/-- The control-message arm of the `select!` loop in `Server::start_new`
(`server.rs` lines 126-133): `Shutdown` hits `todo!()`; the
`ControlMessage::Disconnect(address)` arm has an empty body, so the registry
is left unchanged — no session is ever removed. -/
def Server.process_control_message (message : ControlMessage)
    (sessions : Registry) : Except PanicKind Registry :=
  match message with
  | .Shutdown => .error .todoPanicked
  | .Disconnect _ => .ok sessions

/-- One full client lifecycle against the server registry: the accept loop
inserts the session, the Greeting exchange does not touch the registry, and
the client's `Disconnect` makes `handle_client` send
`ControlMessage::Disconnect(address)`, which the server loop then processes. -/
def Server.connect_greet_disconnect_cycle (address : Nat)
    (sessions : Registry) : Except PanicKind Registry :=
  let registered := Registry.insert_session address sessions
  match Server.handle_client_step address ClientMessage.Disconnect with
  | .SendControlDisconnect a =>
      Server.process_control_message (ControlMessage.Disconnect a) registered
  | .Respond _ => .ok registered

/-! ## config.rs : thresholds -/

def ONE_MEGABYTE : Nat := 1000000

def DEFAULT_SMALL_FILE_THRESHOLD : Nat := ONE_MEGABYTE

def DEFAULT_BUNDLE_TARGET_SIZE : Nat := 64 * ONE_MEGABYTE

def DEFAULT_LARGE_FILE_THRESHOLD : Nat := 512 * ONE_MEGABYTE

/-- `ServerConfig` from `config.rs`. -/
structure ServerConfig where
  roots : List String
  small_file_threshold_bytes : Option Nat
  large_file_threshold_bytes : Option Nat
  bundle_target_size : Option Nat
deriving DecidableEq

/-- `ServerConfig::default`. -/
def ServerConfig.default : ServerConfig :=
  { roots := []
    small_file_threshold_bytes := some DEFAULT_SMALL_FILE_THRESHOLD
    large_file_threshold_bytes := some DEFAULT_LARGE_FILE_THRESHOLD
    bundle_target_size := some DEFAULT_BUNDLE_TARGET_SIZE }

/-- `ServerConfig::get_small_file_threshold`. -/
def ServerConfig.get_small_file_threshold (c : ServerConfig) : Nat :=
  c.small_file_threshold_bytes.getD DEFAULT_SMALL_FILE_THRESHOLD

/-- `ServerConfig::get_large_file_threshold`. -/
def ServerConfig.get_large_file_threshold (c : ServerConfig) : Nat :=
  c.large_file_threshold_bytes.getD DEFAULT_LARGE_FILE_THRESHOLD

/-! ## transfer.rs : file metadata and the transfer-plan bucketing -/

/-- `FileMetadata` from `transfer.rs`: relative path, optional timestamps,
size in bytes (`uncompressed_size : u64`). -/
structure FileMetadata where
  relative_path : String
  created_at : Option Nat
  modified_at : Option Nat
  uncompressed_size : Nat
deriving DecidableEq

/-- Ascending insertion by `uncompressed_size`, used to model
`files.sort_unstable_by_key(|k| k.uncompressed_size)`. -/
def insertBySize (f : FileMetadata) : List FileMetadata → List FileMetadata
  | [] => [f]
  | g :: gs =>
    if f.uncompressed_size ≤ g.uncompressed_size then f :: g :: gs
    else g :: insertBySize f gs

/-- `files.sort_unstable_by_key(|k| k.uncompressed_size)`: sort ascending by
size (insertion sort; the source's sort is unstable, but agrees with this on
the sorted key sequence). -/
def sortBySize (files : List FileMetadata) : List FileMetadata :=
  files.foldr insertBySize []

/-- The bucket computation inside `TransferPlan::create` (`transfer.rs` lines
138-163): sort ascending by size; `first_non_small_file_index` is
`iter().enumerate().skip_while(size < small_threshold).next().map(i).unwrap()`
(the `unwrap` panics when every file is below the small threshold);
`first_large_file_index` is the same search starting from
`first_non_small_file_index` with the large threshold (panics when no file
reaches it); the three buckets are the slices `[0, i)`, `[i, j)`, `[j, end)`
of the sorted list. -/
def TransferPlan.createBuckets (files : List FileMetadata) (config : ServerConfig) :
    Except PanicKind (List FileMetadata × List FileMetadata × List FileMetadata) :=
  let sorted := sortBySize files
  let small_file_threshold := config.get_small_file_threshold
  match (sorted.enum.dropWhile
      (fun p => p.2.uncompressed_size < small_file_threshold)).head? with
  | none => .error .unwrapPanicked
  | some (first_non_small_file_index, _) =>
    let large_file_threshold := config.get_large_file_threshold
    match ((sorted.enum.drop first_non_small_file_index).dropWhile
        (fun p => p.2.uncompressed_size < large_file_threshold)).head? with
    | none => .error .unwrapPanicked
    | some (first_large_file_index, _) =>
      .ok (sorted.take first_non_small_file_index,
           (sorted.drop first_non_small_file_index).take
             (first_large_file_index - first_non_small_file_index),
           sorted.drop first_large_file_index)

/-- `TransferPlan::create` (`transfer.rs` lines 137-173): computes the three
bucket slices (possibly panicking on the two `unwrap`s), prints their sizes,
and then unconditionally hits `todo!()` — it never returns a plan. -/
def TransferPlan.create (files : List FileMetadata) (config : ServerConfig) :
    Except PanicKind Unit :=
  match TransferPlan.createBuckets files config with
  | .error e => .error e
  | .ok _ => .error .todoPanicked

/-! ## transfer.rs : the concurrent discovery engine (step relation)

`StdFilesystem::discover_files_recursively` (`transfer.rs` lines 63-129)
shares a lock-free pending-directory queue and an atomic `folders_to_process`
counter (initialized to 1, with the root pushed) among 16 worker tasks.  Each
worker loops: exit when the counter reads 0; otherwise pop a directory (yield
and retry when the queue is momentarily empty); list it; for each child
directory `fetch_add(1)` the counter and then push the child; collect file
metadata; after the listing send the batch on the output channel and
`fetch_sub(1)` the counter.

The error-free engine is modelled as a small-step relation whose atomic
actions match the source's atomic operations on the shared state; directories
are names (`Nat`) and the filesystem is a listing function. -/

/-- One entry of a directory listing: a child directory or a file. -/
inductive FsEntry where
  | dir (d : Nat)
  | file (m : FileMetadata)
deriving DecidableEq

/-- Control state of one worker task.  `pendingPush child pending files` is
the point between `folders_to_process.fetch_add(1)` and `queue.push(path)` for
`child`; `doneDir` is the point between `output.send(...)` and
`folders_to_process.fetch_sub(1)`. -/
inductive WorkerState where
  | ready
  | processing (pending : List FsEntry) (files : List FileMetadata)
  | pendingPush (child : Nat) (pending : List FsEntry) (files : List FileMetadata)
  | doneDir
  | finished
deriving DecidableEq

/-- Shared state of the discovery engine: the pending-directory queue, the
`folders_to_process` counter, the worker pool, and the batches sent on the
output channel. -/
structure DiscoveryState where
  queue : List Nat
  counter : Nat
  workers : List WorkerState
  sent : List (List FileMetadata)
deriving DecidableEq

/-- Initial state: counter 1 for the root, the root pushed, all workers at the
top of their loop. -/
def DiscoveryState.init (workerCount : Nat) (root : Nat) : DiscoveryState :=
  { queue := [root], counter := 1,
    workers := List.replicate workerCount .ready, sent := [] }

/-- Small-step relation of the error-free discovery engine, one constructor
per atomic action of the worker loop. -/
inductive DStep (fs : Nat → List FsEntry) : DiscoveryState → DiscoveryState → Prop where
  | exit (s : DiscoveryState) (w : Nat)
      (hw : s.workers[w]? = some .ready) (hc : s.counter = 0) :
      DStep fs s { s with workers := s.workers.set w .finished }
  | pop (s : DiscoveryState) (w d : Nat) (rest : List Nat)
      (hw : s.workers[w]? = some .ready) (hc : s.counter ≠ 0)
      (hq : s.queue = d :: rest) :
      DStep fs s { s with queue := rest,
                          workers := s.workers.set w (.processing (fs d) []) }
  | incChild (s : DiscoveryState) (w c : Nat) (pending : List FsEntry)
      (files : List FileMetadata)
      (hw : s.workers[w]? = some (.processing (.dir c :: pending) files)) :
      DStep fs s { s with counter := s.counter + 1,
                          workers := s.workers.set w (.pendingPush c pending files) }
  | pushChild (s : DiscoveryState) (w c : Nat) (pending : List FsEntry)
      (files : List FileMetadata)
      (hw : s.workers[w]? = some (.pendingPush c pending files)) :
      DStep fs s { s with queue := s.queue ++ [c],
                          workers := s.workers.set w (.processing pending files) }
  | fileEntry (s : DiscoveryState) (w : Nat) (m : FileMetadata)
      (pending : List FsEntry) (files : List FileMetadata)
      (hw : s.workers[w]? = some (.processing (.file m :: pending) files)) :
      DStep fs s { s with workers := s.workers.set w (.processing pending (files ++ [m])) }
  | sendBatch (s : DiscoveryState) (w : Nat) (files : List FileMetadata)
      (hw : s.workers[w]? = some (.processing [] files)) :
      DStep fs s { s with sent := s.sent ++ [files],
                          workers := s.workers.set w .doneDir }
  | dec (s : DiscoveryState) (w : Nat)
      (hw : s.workers[w]? = some .doneDir) :
      DStep fs s { s with counter := s.counter - 1,
                          workers := s.workers.set w .ready }

/-- States reachable from the initial state by engine steps. -/
def DReachable (fs : Nat → List FsEntry) (workerCount root : Nat)
    (s : DiscoveryState) : Prop :=
  Relation.ReflTransGen (DStep fs) (DiscoveryState.init workerCount root) s

/-- Number of directories a worker currently holds "in flight": the directory
it popped and is processing (counted from the pop until its decrement), plus
a child whose counter increment has happened but which is not yet visible in
the queue. -/
def WorkerState.inFlight : WorkerState → Nat
  | .ready => 0
  | .finished => 0
  | .processing _ _ => 1
  | .pendingPush _ _ _ => 2
  | .doneDir => 1

/-- Total number of directories in flight across the worker pool. -/
def DiscoveryState.inFlight (s : DiscoveryState) : Nat :=
  (s.workers.map WorkerState.inFlight).sum

/-- The counter invariant: `folders_to_process` equals the number of
directories queued plus the number in flight. -/
def DInv (s : DiscoveryState) : Prop :=
  s.counter = s.queue.length + s.inFlight

/-- Traversal completion: nothing queued and nothing in flight. -/
def DComplete (s : DiscoveryState) : Prop :=
  s.queue = [] ∧ ∀ w ∈ s.workers, w.inFlight = 0

/-! ## transfer.rs : the discovery engine's error path (executable model)

For the failure-policy claim the engine is modelled executably, with
filesystem operations that can fail.  A worker's `?` operators
(`read_dir(path).await?`, `entry.metadata().await?`, ...) make the worker's
spawned task finish with `Err(e)`; `discover_files_recursively` then runs
`future::join_all(tasks).await;` — whose collected per-task results it
discards — and returns `Ok(())`.  One scheduler step runs the next atomic
piece of one chosen worker's loop (child-counter increment and push, and
batch send and decrement, are merged here: with fallible listings the
interleaving of those pairs is irrelevant to the result collection). -/

/-- `CONCURRENCY_LIMIT` from `discover_files_recursively`. -/
def CONCURRENCY_LIMIT : Nat := 16

/-- One entry of a fallible directory listing: a child directory, a file whose
metadata was read, or a file whose metadata read fails with an I/O error. -/
inductive FsEntryE where
  | dir (d : Nat)
  | fileOk (m : FileMetadata)
  | fileErr (e : Nat)
deriving DecidableEq

/-- Result of `read_dir` on a directory: its listing, or an I/O error. -/
inductive ReadDirResult where
  | ok (entries : List FsEntryE)
  | ioError (e : Nat)
deriving DecidableEq

/-- Control state of one worker task in the fallible model; `failed e` means
the task finished with `Err(e)` through a `?`. -/
inductive WorkerStateE where
  | ready
  | processing (pending : List FsEntryE) (files : List FileMetadata)
  | finished
  | failed (e : Nat)
deriving DecidableEq

/-- Shared state of the fallible discovery engine. -/
structure DiscoveryStateE where
  queue : List Nat
  counter : Nat
  workers : List WorkerStateE
  sent : List (List FileMetadata)
deriving DecidableEq

/-- Initial state: counter 1 for the root, the root pushed, all workers at the
top of their loop. -/
def DiscoveryStateE.init (workerCount : Nat) (root : Nat) : DiscoveryStateE :=
  { queue := [root], counter := 1,
    workers := List.replicate workerCount .ready, sent := [] }

/-- Run the next atomic piece of worker `w`'s loop. -/
def stepWorker (fs : Nat → ReadDirResult) (s : DiscoveryStateE) (w : Nat) :
    DiscoveryStateE :=
  match s.workers[w]? with
  | none => s
  | some ws =>
    match ws with
    | .ready =>
      if s.counter = 0 then { s with workers := s.workers.set w .finished }
      else
        match s.queue with
        | [] => s
        | d :: rest =>
          match fs d with
          | .ok entries =>
              { s with queue := rest,
                       workers := s.workers.set w (.processing entries []) }
          | .ioError e =>
              { s with queue := rest, workers := s.workers.set w (.failed e) }
    | .processing (.dir c :: pending) files =>
        { s with counter := s.counter + 1, queue := s.queue ++ [c],
                 workers := s.workers.set w (.processing pending files) }
    | .processing (.fileOk m :: pending) files =>
        { s with workers := s.workers.set w (.processing pending (files ++ [m])) }
    | .processing (.fileErr e :: _) _ =>
        { s with workers := s.workers.set w (.failed e) }
    | .processing [] files =>
        { s with sent := s.sent ++ [files], counter := s.counter - 1,
                 workers := s.workers.set w .ready }
    | .finished => s
    | .failed _ => s

/-- Run a schedule: a list of worker indices, each taking one step in turn. -/
def runSchedule (fs : Nat → ReadDirResult) :
    List Nat → DiscoveryStateE → DiscoveryStateE
  | [], s => s
  | w :: rest, s => runSchedule fs rest (stepWorker fs s w)

/-- All spawned tasks have completed (normally or with an error), so
`future::join_all(tasks).await` returns. -/
def allTasksDone (s : DiscoveryStateE) : Bool :=
  s.workers.all fun w =>
    match w with
    | .finished => true
    | .failed _ => true
    | _ => false

/-- Return value of `discover_files_recursively` once the workers are in
state `s`: while some task still runs, `join_all` has not returned (`none`);
once all tasks are done, the source discards their collected results
(`future::join_all(tasks).await;`) and falls through to `Ok(())`
unconditionally — worker errors are never propagated. -/
def discover_files_recursively_result (s : DiscoveryStateE) :
    Option (Except Nat Unit) :=
  if allTasksDone s then some (Except.ok ()) else none

/-- Concrete failing filesystem: the root (directory 0) lists 16
subdirectories `1..16`, each of which fails to list with I/O error 5. -/
def fsSixteenBad : Nat → ReadDirResult :=
  fun d =>
    if d = 0 then .ok ((List.range 16).map fun i => FsEntryE.dir (i + 1))
    else .ioError 5

/-- Schedule driving `fsSixteenBad` to completion: worker 0 processes the
root (pop, 16 child pushes, final send+decrement = 18 steps), then each of
the 16 workers pops one failing subdirectory and dies with `Err(5)`. -/
def scheduleSixteenBad : List Nat :=
  List.replicate 18 0 ++ List.range 16

/-! ## Concrete inputs and a concrete cipher used by the theorems -/

/-- File metadata with a given path and size and no timestamps. -/
def exFile (p : String) (sz : Nat) : FileMetadata :=
  { relative_path := p, created_at := none, modified_at := none,
    uncompressed_size := sz }

/-- The spec's bucketing example: files of sizes
`[0, 500000, 1000000, 300000000, 600000000]`. -/
def exampleFiles : List FileMetadata :=
  [exFile "a" 0, exFile "b" 500000, exFile "c" 1000000,
   exFile "d" 300000000, exFile "e" 600000000]

/-- A concrete stand-in cipher satisfying the AEAD contract: append a 16-byte
zero tag. -/
def sealPad (_nonce : Nat) (b : List Nat) : List Nat := b ++ List.replicate 16 0

/-- Opening for `sealPad`: strip the 16-byte tag. -/
def openPad (_nonce : Nat) (ct : List Nat) : Option (List Nat) :=
  if 16 ≤ ct.length then some (ct.take (ct.length - 16)) else none

/-- Concatenated frame bytes produced by sending a message list, starting
from encrypt counter `ctr` (one frame per message, counter advanced once per
frame). -/
def send_bytes (sealF : Nat → List Nat → List Nat) (ctr : Nat) :
    List Message → List Nat
  | [] => []
  | m :: ms =>
    (send_buffer sealF ctr (serMessage m)).1 ++ send_bytes sealF (ctr + 1) ms

/-! ## Supporting lemmas -/

theorem be32_length (v : Nat) : (be32 v).length = 4 := rfl

theorem le64_length (v : Nat) : (le64 v).length = 8 := rfl

theorem deBe32_be32 (v : Nat) (h : v < 4294967296) : deBe32 (be32 v) = v := by
  simp only [be32, deBe32]
  omega

theorem le64_injective (a b : Nat) (ha : a < 18446744073709551616)
    (hb : b < 18446744073709551616) (h : le64 a = le64 b) : a = b := by
  simp only [le64, List.cons.injEq, and_true] at h
  omega

theorem deserMessage_serMessage (m : Message) (h : m.wf) :
    deserMessage (serMessage m) = some m := by
  cases m with
  | Greeting v =>
      simp only [Message.wf] at h
      simp only [serMessage, le32, deserMessage, List.cons_append, List.nil_append,
        Option.some.injEq, Message.Greeting.injEq]
      omega
  | Disconnect => rfl

theorem serMessage_length_le (m : Message) : (serMessage m).length ≤ 8 := by
  cases m <;> simp [serMessage, le32]

/-! ## Claims -/

/-- C1, counterexample: `Server::handle_client` answers a `Greeting` whose
`protocol_version` is 2 (which differs from `PROTOCOL_VERSION = 1`) with
`ProtocolOk`, not `UnsupportedProtocol` — the claim's "for every Greeting
whose protocol_version differs from 1, the response is UnsupportedProtocol"
fails at `protocol_version = 2`. -/
theorem claim_C1_counterexample :
    Server.handle_client_step 0 (ClientMessage.Greeting 2) =
        HandlerAction.Respond GreetingResponse.ProtocolOk
    ∧ (2 : Nat) ≠ PROTOCOL_VERSION
    ∧ Server.handle_client_step 0 (ClientMessage.Greeting 2) ≠
        HandlerAction.Respond GreetingResponse.UnsupportedProtocol := by
  decide

/-- C1, amended: the per-connection handler never compares the greeting's
`protocol_version` to the protocol version constant; it responds
`ProtocolOk` to every `Greeting`, whatever its version. -/
theorem claim_C1_amended (address : Nat) (protocol_version : Nat) :
    Server.handle_client_step address (ClientMessage.Greeting protocol_version) =
      HandlerAction.Respond GreetingResponse.ProtocolOk := rfl

/-- C2: `TransferPlan::create` on an empty file set does not return an empty
plan — the `unwrap()` computing `first_non_small_file_index` panics on
`None`, because no file at all reaches the small-file threshold. -/
theorem claim_C2_empty_input_panics :
    TransferPlan.create [] ServerConfig.default =
      Except.error PanicKind.unwrapPanicked := rfl

/-- C3: on the spec's example the bucket slices computed inside
`TransferPlan::create` are exactly the claimed partition, but the function
never returns them: it ends in `todo!()` (so no plan is ever produced), and
on an input where every file is below the small threshold the index
`unwrap()` panics instead of yielding an all-small plan. -/
theorem claim_C3_buckets_computed_but_create_panics :
    TransferPlan.createBuckets exampleFiles ServerConfig.default =
      Except.ok ([exFile "a" 0, exFile "b" 500000],
                 [exFile "c" 1000000, exFile "d" 300000000],
                 [exFile "e" 600000000])
    ∧ TransferPlan.create exampleFiles ServerConfig.default =
        Except.error PanicKind.todoPanicked
    ∧ TransferPlan.create [exFile "a" 0] ServerConfig.default =
        Except.error PanicKind.unwrapPanicked := by
  exact ⟨rfl, rfl, rfl⟩

/-- C4: processing a session's `Disconnect` never removes the session from
the registry — the `ControlMessage::Disconnect` arm of the server loop has an
empty body — so one full connect/Greeting/Disconnect cycle leaves the
registry with 1 session, not 0. -/
theorem claim_C4_registry_never_removes :
    (∀ (address : Nat) (sessions : Registry),
        Server.process_control_message (ControlMessage.Disconnect address) sessions =
          Except.ok sessions)
    ∧ Server.connect_greet_disconnect_cycle 7 [] = Except.ok [7]
    ∧ ([7] : Registry).length = 1 := by
  exact ⟨fun _ _ => rfl, rfl, rfl⟩

set_option maxRecDepth 8000 in
/-- C5: a directory-listing I/O error is not fatal to the traversal's result:
with a root whose 16 subdirectories all fail `read_dir`, every worker task
finishes with `Err(5)`, yet `discover_files_recursively` — which discards the
results collected by `future::join_all` — returns `Ok(())`, with the
outstanding-directory counter stuck at 16. -/
theorem claim_C5_worker_errors_not_propagated :
    discover_files_recursively_result
        (runSchedule fsSixteenBad scheduleSixteenBad
          (DiscoveryStateE.init CONCURRENCY_LIMIT 0)) = some (Except.ok ())
    ∧ (runSchedule fsSixteenBad scheduleSixteenBad
          (DiscoveryStateE.init CONCURRENCY_LIMIT 0)).workers[0]? =
        some (WorkerStateE.failed 5)
    ∧ (runSchedule fsSixteenBad scheduleSixteenBad
          (DiscoveryStateE.init CONCURRENCY_LIMIT 0)).counter = 16 := by
  exact ⟨rfl, rfl, rfl⟩

/-- C10: `Client::send_message` on a client whose connection was already
taken (`connection == None`) returns with no send and no error signal (the
function's return type carries no error); with a present connection the
message is serialized, sealed and framed onto that connection's stream. -/
theorem claim_C10_send_message_none_is_noop :
    (∀ (sealF : Nat → List Nat → List Nat) (m : ClientMessage),
        Client.send_message sealF { connection := none } m =
          { connection := none })
    ∧ (∀ (sealF : Nat → List Nat → List Nat) (conn : SendState) (m : ClientMessage),
        Client.send_message sealF { connection := some conn } m =
          { connection := some (Client.send_message_stream sealF conn m) })
    ∧ (∀ (sealF : Nat → List Nat → List Nat) (conn : SendState) (m : ClientMessage),
        (Client.send_message_stream sealF conn m).out =
          conn.out ++ (send_buffer sealF conn.ctr (serClientMessage m)).1) := by
  exact ⟨fun _ _ => rfl, fun _ _ _ => rfl, fun _ _ _ => rfl⟩

theorem afterAdvances_counter (k : Nat) (h : k + 1 < 18446744073709551616) :
    (NonceCounter.afterAdvances k).counter = k + 1 := by
  induction k with
  | zero => rfl
  | succ n ih =>
      have hn : n + 1 < 18446744073709551616 := by omega
      show ((NonceCounter.afterAdvances n).advance).2.counter = n + 1 + 1
      simp only [NonceCounter.advance, ih hn]
      omega

theorem nonceUsed_eq (k : Nat) (h : k + 2 < 18446744073709551616) :
    nonceUsed k = le64 (k + 2) ++ [0, 0, 0, 0] := by
  have h1 : k + 1 < 18446744073709551616 := by omega
  simp only [nonceUsed, NonceCounter.advance, afterAdvances_counter k h1]
  rw [Nat.mod_eq_of_lt (by omega)]

/-- C8: each direction's `NonceCounter` starts at 1 and is incremented before
each use, so the first nonce used carries counter value 2; every produced
nonce is 12 bytes, its low 8 bytes the little-endian counter and its upper
4 bytes zero; within the `u64` counter's range (which bounds the lifetime of
a channel) the counter sequence is strictly increasing and no nonce value
repeats; and the two directions' counters are created independently by
`bind_key` and advance independently. -/
theorem claim_C8_nonce_counter :
    NonceCounter.new.counter = 1
    ∧ nonceUsed 0 = le64 2 ++ [0, 0, 0, 0]
    ∧ (∀ n : NonceCounter,
        (n.advance).1 =
          le64 ((n.counter + 1) % 18446744073709551616) ++ [0, 0, 0, 0]
        ∧ (n.advance).1.length = 12
        ∧ (n.advance).1.drop 8 = [0, 0, 0, 0])
    ∧ (∀ i j : Nat, i < j → j + 1 < 18446744073709551616 →
        (NonceCounter.afterAdvances i).counter <
          (NonceCounter.afterAdvances j).counter)
    ∧ (∀ i j : Nat, i + 2 < 18446744073709551616 →
        j + 2 < 18446744073709551616 → i ≠ j → nonceUsed i ≠ nonceUsed j)
    ∧ Keys.new.encrypt_counter = NonceCounter.new
    ∧ Keys.new.decrypt_counter = NonceCounter.new
    ∧ (∀ k : Keys, (k.sealAdvance).decrypt_counter = k.decrypt_counter
        ∧ (k.openAdvance).encrypt_counter = k.encrypt_counter) := by
  refine ⟨rfl, rfl, ?_, ?_, ?_, rfl, rfl, fun k => ⟨rfl, rfl⟩⟩
  · intro n
    refine ⟨rfl, ?_, ?_⟩
    · simp [NonceCounter.advance, le64]
    · simp [NonceCounter.advance, le64]
  · intro i j hij hj
    rw [afterAdvances_counter i (by omega), afterAdvances_counter j (by omega)]
    omega
  · intro i j hi hj hne
    rw [nonceUsed_eq i hi, nonceUsed_eq j hj]
    intro heq
    have h8 : (le64 (i + 2)).length = (le64 (j + 2)).length := by
      simp [le64]
    have := (List.append_inj heq h8).1
    have := le64_injective _ _ (by omega) (by omega) this
    omega

theorem claim_C8_nonce_counter_witness :
    NonceCounter.new.counter = 1
    ∧ (NonceCounter.afterAdvances 0).counter < (NonceCounter.afterAdvances 3).counter
    ∧ nonceUsed 0 ≠ nonceUsed 3 := by
  refine ⟨claim_C8_nonce_counter.1, ?_, ?_⟩
  · exact claim_C8_nonce_counter.2.2.2.1 0 3 (by omega) (by norm_num)
  · exact claim_C8_nonce_counter.2.2.2.2.1 0 3 (by norm_num) (by norm_num) (by omega)

/-- C9: every frame written by `send_buffer` (and by the identical code in
`Connection::send_message`) is a 4-byte big-endian length prefix followed by
the ciphertext with its 16-byte authentication tag appended (the tag length
of AES-256-GCM, taken as the hypothesis on the seal function), and the
prefix decodes to exactly the byte length of what follows: serialized
plaintext length + 16.  The `as u32` cast bounds the prefix, hence the
`< 2^32` hypothesis. -/
theorem claim_C9_frame_format
    (sealF : Nat → List Nat → List Nat) (ctr : Nat) (buffer : List Nat)
    (hlen : ∀ n b, (sealF n b).length = b.length + 16)
    (hsize : buffer.length + 16 < 4294967296) :
    (send_buffer sealF ctr buffer).1 =
      be32 (buffer.length + 16) ++ sealF (ctr + 1) buffer
    ∧ (sealF (ctr + 1) buffer).length = buffer.length + 16
    ∧ deBe32 ((send_buffer sealF ctr buffer).1.take 4) =
        ((send_buffer sealF ctr buffer).1.drop 4).length := by
  have h1 : (sealF (ctr + 1) buffer).length = buffer.length + 16 := hlen _ _
  have hmod : (sealF (ctr + 1) buffer).length % 4294967296 = buffer.length + 16 := by
    rw [h1]
    exact Nat.mod_eq_of_lt hsize
  refine ⟨?_, h1, ?_⟩
  · simp only [send_buffer, hmod]
  · simp only [send_buffer, hmod]
    rw [List.take_left' (be32_length _), List.drop_left' (be32_length _)]
    rw [deBe32_be32 _ hsize, h1]

theorem claim_C9_frame_format_witness :
    (send_buffer sealPad 0 [7, 7, 7]).1 = be32 19 ++ sealPad 1 [7, 7, 7]
    ∧ (sealPad 1 [7, 7, 7]).length = 19
    ∧ deBe32 ((send_buffer sealPad 0 [7, 7, 7]).1.take 4) =
        ((send_buffer sealPad 0 [7, 7, 7]).1.drop 4).length := by
  have h := claim_C9_frame_format sealPad 0 [7, 7, 7]
    (fun n b => by simp [sealPad]) (by norm_num)
  exact ⟨h.1, h.2.1, h.2.2⟩

theorem send_all_out (sealF : Nat → List Nat → List Nat) (st : SendState)
    (ms : List Message) :
    (Connection.send_all sealF st ms).out = st.out ++ send_bytes sealF st.ctr ms
    ∧ (Connection.send_all sealF st ms).ctr = st.ctr + ms.length := by
  induction ms generalizing st with
  | nil => simp [Connection.send_all, send_bytes]
  | cons m ms ih =>
      have h := ih (Connection.send_message sealF st m)
      simp only [Connection.send_all, Connection.send_message, send_buffer] at h ⊢
      rw [h.1, h.2]
      constructor
      · rw [List.append_assoc]
        rfl
      · simp only [List.length_cons]
        omega

theorem read_message_frame
    (sealF : Nat → List Nat → List Nat) (openF : Nat → List Nat → Option (List Nat))
    (hopen : ∀ n b, openF n (sealF n b) = some b)
    (hlen : ∀ n b, (sealF n b).length = b.length + 16)
    (c : Nat) (m : Message) (hwf : m.wf) (rest : List Nat) :
    Connection.read_message openF c
      ((send_buffer sealF c (serMessage m)).1 ++ rest) = some (m, c + 1, rest) := by
  have hslen : (sealF (c + 1) (serMessage m)).length = (serMessage m).length + 16 :=
    hlen _ _
  have hm8 : (serMessage m).length ≤ 8 := serMessage_length_le m
  have hlt : (sealF (c + 1) (serMessage m)).length < 4294967296 := by omega
  have hmod : (sealF (c + 1) (serMessage m)).length % 4294967296 =
      (sealF (c + 1) (serMessage m)).length := Nat.mod_eq_of_lt hlt
  simp only [send_buffer, hmod]
  rw [List.append_assoc]
  unfold Connection.read_message
  rw [List.take_left' (be32_length _), List.drop_left' (be32_length _),
    deBe32_be32 _ hlt]
  rw [if_neg (by simp [be32])]
  rw [if_neg (by simp)]
  rw [List.take_left, List.drop_left]
  rw [hopen]
  simp [deserMessage_serMessage m hwf]

theorem read_send_bytes
    (sealF : Nat → List Nat → List Nat) (openF : Nat → List Nat → Option (List Nat))
    (hopen : ∀ n b, openF n (sealF n b) = some b)
    (hlen : ∀ n b, (sealF n b).length = b.length + 16) :
    ∀ (ms : List Message) (c : Nat), (∀ m ∈ ms, m.wf) →
      Connection.read_messages openF ms.length c (send_bytes sealF c ms) = some ms := by
  intro ms
  induction ms with
  | nil => intro c _; rfl
  | cons m ms ih =>
      intro c h
      have hm : m.wf := h m (List.mem_cons_self m ms)
      have hms : ∀ x ∈ ms, x.wf := fun x hx => h x (List.mem_cons_of_mem m hx)
      show Connection.read_messages openF (ms.length + 1) c
        ((send_buffer sealF c (serMessage m)).1 ++ send_bytes sealF (c + 1) ms) =
          some (m :: ms)
      rw [Connection.read_messages,
        read_message_frame sealF openF hopen hlen c m hm _]
      show Option.map (fun x => m :: x)
        (Connection.read_messages openF ms.length (c + 1)
          (send_bytes sealF (c + 1) ms)) = some (m :: ms)
      rw [ih (c + 1) hms]
      rfl

/-- C7: round trip of a message sequence over one channel direction: sending
any well-formed message sequence writes exactly one frame per message
(advancing the encrypt nonce once per message), and reading that many
messages off the resulting byte stream — decrypting and deserializing frame
by frame — reproduces exactly the original sequence in the order sent.  The
AEAD contract of ring's AES-256-GCM (opening inverts sealing under the same
nonce; sealing appends a 16-byte tag) is taken as hypotheses. -/
theorem claim_C7_roundtrip
    (sealF : Nat → List Nat → List Nat) (openF : Nat → List Nat → Option (List Nat))
    (hopen : ∀ n b, openF n (sealF n b) = some b)
    (hlen : ∀ n b, (sealF n b).length = b.length + 16)
    (ms : List Message) (c : Nat) (hwf : ∀ m ∈ ms, m.wf) :
    Connection.read_messages openF ms.length c
        (Connection.send_all sealF { out := [], ctr := c } ms).out = some ms
    ∧ (Connection.send_all sealF { out := [], ctr := c } ms).ctr = c + ms.length := by
  have h := send_all_out sealF { out := [], ctr := c } ms
  refine ⟨?_, h.2⟩
  rw [h.1]
  simpa using read_send_bytes sealF openF hopen hlen ms c hwf

theorem openPad_sealPad (n : Nat) (b : List Nat) : openPad n (sealPad n b) = some b := by
  unfold openPad sealPad
  rw [if_pos (by simp)]
  have h : (b ++ List.replicate 16 0).length - 16 = b.length := by simp
  rw [h, List.take_left]

theorem sealPad_length (n : Nat) (b : List Nat) :
    (sealPad n b).length = b.length + 16 := by
  simp [sealPad]

theorem claim_C7_roundtrip_witness :
    Connection.read_messages openPad 3 1
        (Connection.send_all sealPad { out := [], ctr := 1 }
          [Message.Greeting 1, Message.Disconnect, Message.Greeting 7]).out =
      some [Message.Greeting 1, Message.Disconnect, Message.Greeting 7]
    ∧ (Connection.send_all sealPad { out := [], ctr := 1 }
        [Message.Greeting 1, Message.Disconnect, Message.Greeting 7]).ctr = 1 + 3 := by
  exact claim_C7_roundtrip sealPad openPad openPad_sealPad sealPad_length
    [Message.Greeting 1, Message.Disconnect, Message.Greeting 7] 1 (by decide)

theorem sum_map_set {α : Type} (f : α → Nat) :
    ∀ (l : List α) (i : Nat) (x y : α), l[i]? = some y →
      ((l.set i x).map f).sum + f y = (l.map f).sum + f x := by
  intro l
  induction l with
  | nil => intro i x y h; simp at h
  | cons a l ih =>
      intro i x y h
      cases i with
      | zero =>
          simp only [List.getElem?_cons_zero, Option.some.injEq] at h
          subst h
          simp only [List.set_cons_zero, List.map_cons, List.sum_cons]
          omega
      | succ n =>
          simp only [List.getElem?_cons_succ] at h
          have := ih n x y h
          simp only [List.set_cons_succ, List.map_cons, List.sum_cons]
          omega

theorem getElem?_le_sum {α : Type} (f : α → Nat) (l : List α) (i : Nat) (y : α)
    (h : l[i]? = some y) : f y ≤ (l.map f).sum := by
  have hy : y ∈ l := List.getElem?_mem h
  exact List.single_le_sum (fun x _ => Nat.zero_le x) _ (List.mem_map_of_mem f hy)

theorem DStep_preserves_DInv (fs : Nat → List FsEntry) {s t : DiscoveryState}
    (hst : DStep fs s t) (hinv : DInv s) : DInv t := by
  unfold DInv DiscoveryState.inFlight at hinv ⊢
  cases hst with
  | exit w hw hc =>
      have h := sum_map_set WorkerState.inFlight s.workers w .finished .ready hw
      simp only [WorkerState.inFlight] at h
      show s.counter = s.queue.length +
        ((s.workers.set w WorkerState.finished).map WorkerState.inFlight).sum
      omega
  | pop w d rest hw hc hq =>
      have h := sum_map_set WorkerState.inFlight s.workers w
        (.processing (fs d) []) .ready hw
      simp only [WorkerState.inFlight] at h
      have hql : s.queue.length = rest.length + 1 := by rw [hq]; rfl
      show s.counter = rest.length +
        ((s.workers.set w (WorkerState.processing (fs d) [])).map
          WorkerState.inFlight).sum
      omega
  | incChild w c pending files hw =>
      have h := sum_map_set WorkerState.inFlight s.workers w
        (.pendingPush c pending files) (.processing (.dir c :: pending) files) hw
      simp only [WorkerState.inFlight] at h
      show s.counter + 1 = s.queue.length +
        ((s.workers.set w (WorkerState.pendingPush c pending files)).map
          WorkerState.inFlight).sum
      omega
  | pushChild w c pending files hw =>
      have h := sum_map_set WorkerState.inFlight s.workers w
        (.processing pending files) (.pendingPush c pending files) hw
      simp only [WorkerState.inFlight] at h
      show s.counter = (s.queue ++ [c]).length +
        ((s.workers.set w (WorkerState.processing pending files)).map
          WorkerState.inFlight).sum
      rw [List.length_append]
      simp only [List.length_singleton]
      omega
  | fileEntry w m pending files hw =>
      have h := sum_map_set WorkerState.inFlight s.workers w
        (.processing pending (files ++ [m])) (.processing (.file m :: pending) files) hw
      simp only [WorkerState.inFlight] at h
      show s.counter = s.queue.length +
        ((s.workers.set w (WorkerState.processing pending (files ++ [m]))).map
          WorkerState.inFlight).sum
      omega
  | sendBatch w files hw =>
      have h := sum_map_set WorkerState.inFlight s.workers w
        .doneDir (.processing [] files) hw
      simp only [WorkerState.inFlight] at h
      show s.counter = s.queue.length +
        ((s.workers.set w WorkerState.doneDir).map WorkerState.inFlight).sum
      omega
  | dec w hw =>
      have h := sum_map_set WorkerState.inFlight s.workers w .ready .doneDir hw
      have hge := getElem?_le_sum WorkerState.inFlight s.workers w .doneDir hw
      simp only [WorkerState.inFlight] at h hge
      show s.counter - 1 = s.queue.length +
        ((s.workers.set w WorkerState.ready).map WorkerState.inFlight).sum
      omega

theorem DReachable_DInv (fs : Nat → List FsEntry) (workerCount root : Nat)
    (s : DiscoveryState) (h : DReachable fs workerCount root s) : DInv s := by
  unfold DReachable at h
  induction h with
  | refl =>
      simp [DInv, DiscoveryState.init, DiscoveryState.inFlight,
        List.map_replicate, List.sum_replicate, WorkerState.inFlight]
  | tail hab hbc ih => exact DStep_preserves_DInv fs hbc ih

/-- C6: in every state of the discovery engine reachable from the initial
state (counter 1, root queued, all workers ready), the `folders_to_process`
counter equals the number of directories queued plus the number in flight
(a directory is in flight from its counter increment — which the step
relation performs strictly before the push that makes it visible in the
queue — until the decrement that follows the completion of its processing),
and consequently the counter is 0 with an empty queue exactly when the
traversal is complete (nothing queued, nothing in flight). -/
theorem claim_C6_counter_invariant (fs : Nat → List FsEntry)
    (workerCount root : Nat) (s : DiscoveryState)
    (h : DReachable fs workerCount root s) :
    DInv s ∧ (s.counter = 0 ∧ s.queue = [] ↔ DComplete s) := by
  have hinv := DReachable_DInv fs workerCount root s h
  refine ⟨hinv, ?_, ?_⟩
  · rintro ⟨hc, hq⟩
    refine ⟨hq, ?_⟩
    intro w hw
    have hql : s.queue.length = 0 := by rw [hq]; rfl
    have hsum : (s.workers.map WorkerState.inFlight).sum = 0 := by
      unfold DInv DiscoveryState.inFlight at hinv
      omega
    have hmem : WorkerState.inFlight w ∈ s.workers.map WorkerState.inFlight :=
      List.mem_map_of_mem _ hw
    have hle := List.single_le_sum (fun x _ => Nat.zero_le x) _ hmem
    omega
  · rintro ⟨hq, hall⟩
    have hsum : (s.workers.map WorkerState.inFlight).sum = 0 := by
      apply List.sum_eq_zero
      intro x hx
      obtain ⟨w, hw, rfl⟩ := List.mem_map.mp hx
      exact hall w hw
    have hql : s.queue.length = 0 := by rw [hq]; rfl
    unfold DInv DiscoveryState.inFlight at hinv
    exact ⟨by omega, hq⟩

theorem claim_C6_counter_invariant_witness :
    DInv (DiscoveryState.init 16 0)
    ∧ ((DiscoveryState.init 16 0).counter = 0 ∧ (DiscoveryState.init 16 0).queue = []
        ↔ DComplete (DiscoveryState.init 16 0)) :=
  claim_C6_counter_invariant (fun _ => []) 16 0 _ Relation.ReflTransGen.refl
